import Mathlib

/-!
Verification of the prompt-versioning, generation-gateway and plan-evolution
core of the aicyclingcoach backend.

The definitions below are a shallow embedding of the Python sources:
  - `backend/app/services/prompt_manager.py`  (PromptManager)
  - `backend/app/services/ai_service.py`      (AIService)
  - `backend/app/services/plan_evolution.py`  (PlanEvolutionService)
  - `backend/app/models/{prompt,plan,analysis}.py`

The SQLAlchemy-backed tables are modelled as Lean lists of rows together
with an auto-increment counter for primary keys; every public service
method becomes a pure function from store state to store state plus the
method's return value.  `ORDER BY version DESC` is modelled by an
insertion sort, `scalar_one_or_none` by an `Except`/`Option` match, and
the external network call of `AIService._make_ai_request` by an oracle
`Nat -> AttemptResult` giving the outcome of each HTTP attempt.
-/

namespace Coach

/-- Row of the `prompts` table (`backend/app/models/prompt.py`). -/
structure Prompt where
  id : Nat
  action_type : String
  model : Option String
  prompt_text : String
  version : Nat
  active : Bool
deriving DecidableEq, Repr

/-- The `prompts` table: rows plus the auto-increment primary-key counter. -/
structure PromptStore where
  rows : List Prompt
  next_id : Nat
deriving DecidableEq, Repr

/-- Effect of `UPDATE prompts SET active = false WHERE action_type = cat` on one row. -/
def deactivateCat (cat : String) (p : Prompt) : Prompt :=
  if p.action_type == cat then { p with active := false } else p

/-- Effect of the ORM mutation `prompt.active = True` on the row with primary key `pid`. -/
def activateId (pid : Nat) (p : Prompt) : Prompt :=
  if p.id == pid then { p with active := true } else p

/-- Insert into a list sorted descending by `key`, used to model `ORDER BY ... DESC`. -/
def insertDescBy {α : Type} (key : α → Nat) (a : α) : List α → List α
  | [] => [a]
  | b :: rest => if key b ≤ key a then a :: b :: rest else b :: insertDescBy key a rest

/-- Sort a list descending by `key`, used to model `ORDER BY ... DESC`. -/
def sortDescBy {α : Type} (key : α → Nat) : List α → List α
  | [] => []
  | a :: rest => insertDescBy key a (sortDescBy key rest)

/-- Model of `select(func.max(Prompt.version)).where(action_type = cat)` followed by
`.scalar() or 0`: the maximum version among rows of the category, `0` when none exist. -/
def max_version (rows : List Prompt) (action_type : String) : Nat :=
  ((rows.filter (fun p => p.action_type == action_type)).map (fun p => p.version)).foldr Nat.max 0

/-- `PromptManager.create_prompt_version`: deactivate every row of the category,
compute the next version number, insert a new active row, return it with the new state. -/
def create_prompt_version (s : PromptStore) (action_type prompt_text : String)
    (model : Option String) : Prompt × PromptStore :=
  let deactivated := s.rows.map (deactivateCat action_type)
  let new_prompt : Prompt :=
    { id := s.next_id, action_type := action_type, model := model,
      prompt_text := prompt_text,
      version := max_version deactivated action_type + 1, active := true }
  (new_prompt, { rows := deactivated ++ [new_prompt], next_id := s.next_id + 1 })

/-- `PromptManager.activate_prompt_version`: look the row up by primary key; if absent
return `False`; otherwise deactivate every row of its category, reactivate the row,
and return `True`. -/
def activate_prompt_version (s : PromptStore) (prompt_id : Nat) : PromptStore × Bool :=
  match s.rows.find? (fun p => p.id == prompt_id) with
  | none => (s, false)
  | some r =>
    let deactivated := s.rows.map (deactivateCat r.action_type)
    let activated := deactivated.map (activateId prompt_id)
    ({ rows := activated, next_id := s.next_id }, true)

/-- `PromptManager.get_active_prompt`: select the active row of the category (optionally
also filtered by model when the `model` argument is a non-empty string), ordered by
version descending; `scalar_one_or_none` yields the single row, `none`, or raises
`MultipleResultsFound` (the `Except.error` case) when several rows match. -/
def get_active_prompt (s : PromptStore) (action_type : String) (model : Option String) :
    Except String (Option String) :=
  let found := sortDescBy (fun p => p.version)
    (s.rows.filter (fun p => p.action_type == action_type && p.active &&
      (match model with
       | none => true
       | some m => if m == "" then true else p.model == some m)))
  match found with
  | [] => Except.ok none
  | [p] => Except.ok (some p.prompt_text)
  | _ => Except.error "MultipleResultsFound"

/-- `PromptManager.get_prompt_history`: all rows of the category, version descending. -/
def get_prompt_history (s : PromptStore) (action_type : String) : List Prompt :=
  sortDescBy (fun p => p.version) (s.rows.filter (fun p => p.action_type == action_type))

/-- Predicate selecting the active rows of a category. -/
def activeFilter (cat : String) (p : Prompt) : Bool :=
  p.action_type == cat && p.active

/-- Number of active rows of a category in the table. -/
def activeCount (rows : List Prompt) (cat : String) : Nat :=
  (rows.filter (activeFilter cat)).length

/-!
JSON values and a strict parser, modelling Python's `json.loads` as used by
`AIService._parse_plan_response` and `AIService._parse_workout_analysis`.
Numbers are kept exact as `mantissa * 10 ^ exponent` (so `1` parses to
`number 1 0` and `1.5` to `number 15 (-1)`); the int/float distinction of
Python, surrogate-pair combination of `\u` escapes and the non-standard
`NaN`/`Infinity` constants are not modelled, as nothing in the verified
code depends on them.
-/

/-- JSON value. Objects keep the Python `dict` insertion-order semantics via
`insertMember` below. -/
inductive Json where
  | null : Json
  | boolean : Bool → Json
  | number : Int → Int → Json
  | str : String → Json
  | arr : List Json → Json
  | obj : List (String × Json) → Json

/-- Add a key/value pair to an object the way a Python `dict` does: an existing
key keeps its position and gets the new value, a new key is appended. -/
def insertMember : List (String × Json) → String → Json → List (String × Json)
  | [], k, v => [(k, v)]
  | (k0, v0) :: rest, k, v =>
    if k0 = k then (k0, v) :: rest else (k0, v0) :: insertMember rest k v

/-- JSON insignificant whitespace. -/
def isJsonWs (c : Char) : Bool :=
  c = ' ' || c = '\t' || c = '\n' || c = '\r'

/-- Drop leading JSON whitespace. -/
def skipWs : List Char → List Char
  | [] => []
  | c :: rest => if isJsonWs c then skipWs rest else c :: rest

/-- Value of a hexadecimal digit. -/
def hexVal (c : Char) : Option Nat :=
  if '0' ≤ c ∧ c ≤ '9' then some (c.toNat - '0'.toNat)
  else if 'a' ≤ c ∧ c ≤ 'f' then some (c.toNat - 'a'.toNat + 10)
  else if 'A' ≤ c ∧ c ≤ 'F' then some (c.toNat - 'A'.toNat + 10)
  else none

/-- Parse the body of a JSON string after the opening quote (strict mode:
unescaped control characters are rejected). Returns the string and the input
after the closing quote. -/
def parseStringBody (fuel : Nat) (acc : List Char) (s : List Char) :
    Option (String × List Char) :=
  match fuel with
  | 0 => none
  | fuel + 1 =>
    match s with
    | [] => none
    | c :: rest =>
      if c = '"' then some (String.mk acc.reverse, rest)
      else if c = '\\' then
        match rest with
        | [] => none
        | e :: rest2 =>
          if e = '"' then parseStringBody fuel ('"' :: acc) rest2
          else if e = '\\' then parseStringBody fuel ('\\' :: acc) rest2
          else if e = '/' then parseStringBody fuel ('/' :: acc) rest2
          else if e = 'b' then parseStringBody fuel ('\x08' :: acc) rest2
          else if e = 'f' then parseStringBody fuel ('\x0c' :: acc) rest2
          else if e = 'n' then parseStringBody fuel ('\n' :: acc) rest2
          else if e = 'r' then parseStringBody fuel ('\r' :: acc) rest2
          else if e = 't' then parseStringBody fuel ('\t' :: acc) rest2
          else if e = 'u' then
            match rest2 with
            | h1 :: h2 :: h3 :: h4 :: rest3 =>
              match hexVal h1, hexVal h2, hexVal h3, hexVal h4 with
              | some a, some b, some c2, some d =>
                parseStringBody fuel
                  (Char.ofNat (((a * 16 + b) * 16 + c2) * 16 + d) :: acc) rest3
              | _, _, _, _ => none
            | _ => none
          else none
      else if c.toNat < 32 then none
      else parseStringBody fuel (c :: acc) rest

/-- Split off the maximal run of leading decimal digits. -/
def takeDigits : List Char → List Char × List Char
  | [] => ([], [])
  | c :: rest =>
    if c.isDigit then
      match takeDigits rest with
      | (d, r) => (c :: d, r)
    else ([], c :: rest)

/-- Numeric value of a digit run. -/
def digitsVal (l : List Char) : Nat :=
  l.foldl (fun a c => a * 10 + (c.toNat - 48)) 0

/-- Parse an optional fraction part: digits of the fraction (empty when absent)
and the remaining input; a dot without digits is a syntax error. -/
def parseFrac : List Char → Option (List Char × List Char)
  | '.' :: rest =>
    match takeDigits rest with
    | ([], _) => none
    | (d, r) => some (d, r)
  | s => some ([], s)

/-- Parse an optional exponent part, returning its signed value. -/
def parseExp : List Char → Option (Int × List Char)
  | [] => some (0, [])
  | c :: rest =>
    if c = 'e' ∨ c = 'E' then
      match
        (match rest with
         | '+' :: r => ((1 : Int), r)
         | '-' :: r => ((-1 : Int), r)
         | r => ((1 : Int), r)) with
      | (sign, r1) =>
        match takeDigits r1 with
        | ([], _) => none
        | (d, r2) => some (sign * Int.ofNat (digitsVal d), r2)
    else some (0, c :: rest)

/-- Parse a JSON number (strict grammar: no leading zeros, a fraction and an
exponent need at least one digit each). -/
def parseNumber (s : List Char) : Option (Json × List Char) :=
  match
    (match s with
     | '-' :: rest => (true, rest)
     | _ => (false, s)) with
  | (neg, s1) =>
    match takeDigits s1 with
    | ([], _) => none
    | (ints, s2) =>
      if 1 < ints.length ∧ ints.headD '0' = '0' then none
      else
        match parseFrac s2 with
        | none => none
        | some (frac, s3) =>
          match parseExp s3 with
          | none => none
          | some (e, s4) =>
            let mantNat := digitsVal (ints ++ frac)
            let mant : Int := if neg then -(Int.ofNat mantNat) else Int.ofNat mantNat
            some (Json.number mant (e - Int.ofNat frac.length), s4)

mutual

/-- Parse one JSON value (after skipping leading whitespace). The fuel argument
bounds the recursion depth; `json_loads` supplies enough for any input. -/
def parseValue (fuel : Nat) (s : List Char) : Option (Json × List Char) :=
  match fuel with
  | 0 => none
  | fuel + 1 =>
    match skipWs s with
    | [] => none
    | 'n' :: 'u' :: 'l' :: 'l' :: rest => some (Json.null, rest)
    | 't' :: 'r' :: 'u' :: 'e' :: rest => some (Json.boolean true, rest)
    | 'f' :: 'a' :: 'l' :: 's' :: 'e' :: rest => some (Json.boolean false, rest)
    | '"' :: rest =>
      match parseStringBody (rest.length + 1) [] rest with
      | some (str, r) => some (Json.str str, r)
      | none => none
    | '[' :: rest => parseArrayStart fuel rest
    | '{' :: rest => parseObjStart fuel rest
    | c :: rest =>
      if c = '-' ∨ c.isDigit then parseNumber (c :: rest)
      else none

/-- Parse an array body right after `[`: empty array or first element. -/
def parseArrayStart (fuel : Nat) (s : List Char) : Option (Json × List Char) :=
  match fuel with
  | 0 => none
  | fuel + 1 =>
    match skipWs s with
    | ']' :: rest => some (Json.arr [], rest)
    | s2 =>
      match parseValue fuel s2 with
      | some (v, r) => parseArrayRest fuel [v] r
      | none => none

/-- Parse the continuation of an array: `,` then a value, or the closing `]`.
Elements are accumulated in reverse. -/
def parseArrayRest (fuel : Nat) (acc : List Json) (s : List Char) :
    Option (Json × List Char) :=
  match fuel with
  | 0 => none
  | fuel + 1 =>
    match skipWs s with
    | ']' :: rest => some (Json.arr acc.reverse, rest)
    | ',' :: rest =>
      match parseValue fuel rest with
      | some (v, r) => parseArrayRest fuel (v :: acc) r
      | none => none
    | _ => none

/-- Parse an object body right after the opening brace: empty object or first member. -/
def parseObjStart (fuel : Nat) (s : List Char) : Option (Json × List Char) :=
  match fuel with
  | 0 => none
  | fuel + 1 =>
    match skipWs s with
    | '}' :: rest => some (Json.obj [], rest)
    | s2 => parseObjMember fuel [] s2

/-- Parse one `"key": value` member and continue with `parseObjRest`. -/
def parseObjMember (fuel : Nat) (acc : List (String × Json)) (s : List Char) :
    Option (Json × List Char) :=
  match fuel with
  | 0 => none
  | fuel + 1 =>
    match skipWs s with
    | '"' :: rest =>
      match parseStringBody (rest.length + 1) [] rest with
      | some (key, r1) =>
        match skipWs r1 with
        | ':' :: r2 =>
          match parseValue fuel r2 with
          | some (v, r3) => parseObjRest fuel (insertMember acc key v) r3
          | none => none
        | _ => none
      | none => none
    | _ => none

/-- Parse the continuation of an object: `,` then a member, or the closing brace. -/
def parseObjRest (fuel : Nat) (acc : List (String × Json)) (s : List Char) :
    Option (Json × List Char) :=
  match fuel with
  | 0 => none
  | fuel + 1 =>
    match skipWs s with
    | '}' :: rest => some (Json.obj acc, rest)
    | ',' :: rest => parseObjMember fuel acc rest
    | _ => none

end

/-- Model of Python's `json.loads`: parse one value, allow surrounding
whitespace, reject trailing garbage; `none` is the `JSONDecodeError` case. -/
def json_loads (s : String) : Option Json :=
  match parseValue (2 * s.length + 2) s.data with
  | some (v, rest) => if (skipWs rest).isEmpty then some v else none
  | none => none

/-- Python whitespace as stripped by `str.strip()` (ASCII part). -/
def isPyWs (c : Char) : Bool :=
  c = ' ' || c = '\t' || c = '\n' || c = '\r' || c = '\x0b' || c = '\x0c'

/-- Model of Python's `str.strip()`. -/
def pyStrip (s : String) : String :=
  String.mk (((s.data.dropWhile isPyWs).reverse.dropWhile isPyWs).reverse)

/-- Whether `pat` is a prefix of `s`, modelling `str.startswith`. -/
def startsWithChars : List Char → List Char → Bool
  | [], _ => true
  | _ :: _, [] => false
  | p :: ps, c :: cs => p == c && startsWithChars ps cs

/-- Model of the Python slice `s[7:-3]`: drop the first 7 and last 3 characters
(empty when fewer than 10 characters remain). -/
def sliceSevenMinusThree (s : String) : String :=
  String.mk ((s.data.drop 7).take (s.data.length - 10))

/-- The response-cleaning step shared by the `_parse_*` helpers of `AIService`:
`response.strip()`, then strip the fence via `clean_response[7:-3]` when the
text starts with a ```json fence marker. -/
def clean_response (response : String) : String :=
  let stripped := pyStrip response
  if startsWithChars ("```json".data) stripped.data then sliceSevenMinusThree stripped
  else stripped

/-- The fallback dictionary built by `AIService._parse_plan_response` on a
`JSONDecodeError`. -/
def raw_plan_obj (response : String) : Json :=
  Json.obj [("raw_plan", Json.str response), ("structured", Json.boolean false)]

/-- The fallback dictionary built by `AIService._parse_workout_analysis` on a
`JSONDecodeError`. -/
def raw_analysis_obj (response : String) : Json :=
  Json.obj [("raw_analysis", Json.str response), ("structured", Json.boolean false)]

/-- `AIService._parse_plan_response`: strict JSON parse of the cleaned response;
a parse failure degrades to the raw marker dictionary instead of raising. -/
def parse_plan_response (response : String) : Json :=
  match json_loads (clean_response response) with
  | some v => v
  | none => raw_plan_obj response

/-- `AIService._parse_workout_analysis`: same tolerant parse with the
`raw_analysis` fallback key. -/
def parse_workout_analysis (response : String) : Json :=
  match json_loads (clean_response response) with
  | some v => v
  | none => raw_analysis_obj response

/-!
The retry loop of `AIService._make_ai_request`.  One HTTP attempt is an
oracle value: either the extracted `choices[0].message.content` string of a
successful round trip, or a failure (any exception caught by the loop body:
transport error, non-2xx status via `raise_for_status`, or a malformed
response envelope).  The model records, besides the outcome, the number of
attempts issued, the seconds slept between attempts, and the timeout each
attempt was issued with.
-/

/-- Outcome of one HTTP attempt against the generation endpoint. -/
inductive AttemptResult where
  | success : String → AttemptResult
  | failure : String → AttemptResult
deriving DecidableEq, Repr

/-- Observable trace of a `_make_ai_request` run. -/
structure RequestTrace where
  outcome : Except String String
  attempts : Nat
  sleeps : List Nat
  timeouts : List Nat
deriving Repr

/-- The per-attempt timeout passed to `client.post` (`timeout=30.0`), in seconds. -/
def request_timeout : Nat := 30

/-- Body of `for attempt in range(3)`: on success return the payload, on the
last index (`attempt == 2`) re-raise as `AIServiceError`, otherwise sleep
`2 ** attempt` seconds and continue. -/
def retry_go (oracle : Nat → AttemptResult) : List Nat → RequestTrace
  | [] => { outcome := Except.error "loop exhausted", attempts := 0, sleeps := [], timeouts := [] }
  | i :: rest =>
    match oracle i with
    | AttemptResult.success c =>
      { outcome := Except.ok c, attempts := 1, sleeps := [], timeouts := [request_timeout] }
    | AttemptResult.failure e =>
      if i == 2 then
        { outcome := Except.error ("AI request failed after 3 attempts: " ++ e),
          attempts := 1, sleeps := [], timeouts := [request_timeout] }
      else
        let t := retry_go oracle rest
        { outcome := t.outcome, attempts := t.attempts + 1,
          sleeps := 2 ^ i :: t.sleeps, timeouts := request_timeout :: t.timeouts }

/-- `AIService._make_ai_request`: the retry loop over attempt indices 0, 1, 2. -/
def make_ai_request (oracle : Nat → AttemptResult) : RequestTrace :=
  retry_go oracle [0, 1, 2]

/-- Python exceptions that can escape the `AIService` generation methods. -/
inductive AIErr where
  | valueError : String → AIErr
  | attributeError : AIErr
  | keyError : String → AIErr
  | aiServiceError : String → AIErr
  | dbError : String → AIErr
deriving DecidableEq, Repr

/-- Look a name up in the rendering context. -/
def lookupCtx : List (String × String) → String → Option String
  | [], _ => none
  | (k, v) :: rest, name => if k = name then some v else lookupCtx rest name

/-- Read a placeholder name up to the closing brace. -/
def takeName : List Char → Option (List Char × List Char)
  | [] => none
  | c :: rest =>
    if c = '}' then some ([], rest)
    else
      match takeName rest with
      | some (n, r) => some (c :: n, r)
      | none => none

/-- Core of `str.format(**context)` on the template characters: substitute
every named placeholder, treat doubled braces as literals, fail on a
placeholder missing from the context (Python `KeyError`) or on an unmatched
brace (Python `ValueError`).  Format specs, conversions and auto-numbered
positional fields are not modelled; the templates of this repository use
plain named fields.  Context values arrive already stringified (Python
applies `str()` to each substituted value). -/
def formatChars (ctx : List (String × String)) : Nat → List Char → Option (List Char)
  | 0, _ => none
  | _, [] => some []
  | fuel + 1, '{' :: '{' :: rest =>
    (formatChars ctx fuel rest).map (fun r => '{' :: r)
  | fuel + 1, '}' :: '}' :: rest =>
    (formatChars ctx fuel rest).map (fun r => '}' :: r)
  | fuel + 1, '{' :: rest =>
    match takeName rest with
    | none => none
    | some (nameChars, r1) =>
      match lookupCtx ctx (String.mk nameChars) with
      | none => none
      | some v => (formatChars ctx fuel r1).map (fun r => v.data ++ r)
  | _ + 1, '}' :: _ => none
  | fuel + 1, c :: rest =>
    (formatChars ctx fuel rest).map (fun r => c :: r)

/-- `template.format(**context)` with already-stringified context values;
`none` models the raised `KeyError`/`ValueError`. -/
def py_format (template : String) (ctx : List (String × String)) : Option String :=
  (formatChars ctx (template.length + 1) template.data).map String.mk

/-- `AIService.evolve_plan`: look up the active `plan_evolution` template
(raising `ValueError` when there is none), render it, call the endpoint with
retries, and parse the reply tolerantly.  The second component counts the
HTTP attempts actually issued. -/
def ai_evolve_plan (s : PromptStore) (ctx : List (String × String))
    (oracle : Nat → AttemptResult) : Except AIErr Json × Nat :=
  match get_active_prompt s "plan_evolution" none with
  | Except.error e => (Except.error (AIErr.dbError e), 0)
  | Except.ok none => (Except.error (AIErr.valueError "No active plan evolution prompt found"), 0)
  | Except.ok (some tmpl) =>
    match py_format tmpl ctx with
    | none => (Except.error (AIErr.keyError "format name missing from context"), 0)
    | some _prompt =>
      let t := make_ai_request oracle
      match t.outcome with
      | Except.error e => (Except.error (AIErr.aiServiceError e), t.attempts)
      | Except.ok response => (Except.ok (parse_plan_response response), t.attempts)

/-- `AIService.generate_plan`: unlike `evolve_plan` and `analyze_workout`, this
method has no `if not prompt_template` guard: when no `plan_generation`
template is active, `prompt_template` is `None` and
`prompt_template.format(**context)` raises `AttributeError`. -/
def ai_generate_plan (s : PromptStore) (ctx : List (String × String))
    (oracle : Nat → AttemptResult) : Except AIErr Json × Nat :=
  match get_active_prompt s "plan_generation" none with
  | Except.error e => (Except.error (AIErr.dbError e), 0)
  | Except.ok none => (Except.error AIErr.attributeError, 0)
  | Except.ok (some tmpl) =>
    match py_format tmpl ctx with
    | none => (Except.error (AIErr.keyError "format name missing from context"), 0)
    | some _prompt =>
      let t := make_ai_request oracle
      match t.outcome with
      | Except.error e => (Except.error (AIErr.aiServiceError e), t.attempts)
      | Except.ok response => (Except.ok (parse_plan_response response), t.attempts)

/-!
The plan lineage model (`backend/app/models/plan.py`,
`backend/app/models/analysis.py`, `backend/app/services/plan_evolution.py`).
-/

/-- Row of the `plans` table. -/
structure Plan where
  id : Nat
  jsonb_plan : Json
  version : Nat
  parent_plan_id : Option Nat

/-- The fields of an `analyses` row read by `evolve_plan_from_analysis`. -/
structure Analysis where
  id : Nat
  workout_id : Nat
  jsonb_feedback : Json
  suggestions : Option Json
  approved : Bool

/-- The `plans` table: rows plus the auto-increment primary-key counter. -/
structure PlanStore where
  plans : List Plan
  next_id : Nat

/-- Python truthiness of a JSON column value, as tested by
`if not suggestions`: `None`, `False`, `0`, `""`, `[]` and an empty dict are
falsy, everything else is truthy. -/
def jsonTruthy : Option Json → Bool
  | none => false
  | some Json.null => false
  | some (Json.boolean b) => b
  | some (Json.number m _) => !(m == 0)
  | some (Json.str s) => !(s == "")
  | some (Json.arr l) => !l.isEmpty
  | some (Json.obj l) => !l.isEmpty

/-- The `evolution_context` dictionary built by `evolve_plan_from_analysis`
before calling `AIService.evolve_plan`. -/
structure EvolutionContext where
  current_plan : Json
  workout_analysis : Json
  suggestions : Option Json
  evolution_type : String

/-- Build the `evolution_context` dictionary from the analysis and the plan. -/
def build_evolution_context (analysis : Analysis) (current_plan : Plan) : EvolutionContext :=
  { current_plan := current_plan.jsonb_plan
    workout_analysis := analysis.jsonb_feedback
    suggestions := analysis.suggestions
    evolution_type := "workout_feedback" }

/-- `PlanEvolutionService.evolve_plan_from_analysis`.  The AI round trip
(`AIService.evolve_plan` on the built context) is abstracted as the
`gateway` argument; its `Except.error` case covers the `ValueError` /
`AIServiceError` exceptions, which propagate uncaught.  When the analysis is
not approved, or its `suggestions` value is falsy, the method returns `None`
without touching the store; otherwise it inserts and returns the forked
plan. -/
def evolve_plan_from_analysis (gateway : EvolutionContext → Except AIErr Json)
    (analysis : Analysis) (current_plan : Plan) (s : PlanStore) :
    Except AIErr (Option Plan × PlanStore) :=
  if analysis.approved = false then Except.ok (none, s)
  else if jsonTruthy analysis.suggestions = false then Except.ok (none, s)
  else
    match gateway (build_evolution_context analysis current_plan) with
    | Except.error e => Except.error e
    | Except.ok new_plan_data =>
      let new_plan : Plan :=
        { id := s.next_id, jsonb_plan := new_plan_data,
          version := current_plan.version + 1,
          parent_plan_id := some current_plan.id }
      Except.ok (some new_plan, { plans := s.plans ++ [new_plan], next_id := s.next_id + 1 })

/-- `PlanEvolutionService.get_current_active_plan`:
`select(Plan).order_by(Plan.version.desc()).limit(1)` then
`scalar_one_or_none` (which cannot raise here, the result set having at most
one row). -/
def get_current_active_plan (s : PlanStore) : Option Plan :=
  (sortDescBy (fun p => p.version) s.plans).head?

/-!
Theorems. Claim theorems are named after the claim ids; the supporting
lemmas about lists come first.
-/

theorem filter_eq_nil_of_false {α : Type} (f : α → Bool) :
    ∀ l : List α, (∀ a ∈ l, f a = false) → l.filter f = []
  | [], _ => rfl
  | a :: l, h => by
    simp [List.filter_cons, h a (List.mem_cons_self a l),
      filter_eq_nil_of_false f l (fun b hb => h b (List.mem_cons_of_mem a hb))]

theorem deactivateCat_action (c : String) (p : Prompt) :
    (deactivateCat c p).action_type = p.action_type := by
  unfold deactivateCat; split <;> rfl

theorem deactivateCat_id (c : String) (p : Prompt) :
    (deactivateCat c p).id = p.id := by
  unfold deactivateCat; split <;> rfl

theorem deactivateCat_of_eq {c : String} {p : Prompt} (h : p.action_type = c) :
    deactivateCat c p = { p with active := false } := by
  simp [deactivateCat, h]

theorem deactivateCat_of_ne {c : String} {p : Prompt} (h : ¬ p.action_type = c) :
    deactivateCat c p = p := by
  simp [deactivateCat, h]

theorem activeCount_append (l1 l2 : List Prompt) (c : String) :
    activeCount (l1 ++ l2) c = activeCount l1 c + activeCount l2 c := by
  simp [activeCount, List.filter_append]

theorem activeCount_cons (p : Prompt) (l : List Prompt) (c : String) :
    activeCount (p :: l) c = (if activeFilter c p then 1 else 0) + activeCount l c := by
  by_cases h : activeFilter c p <;> simp [activeCount, List.filter_cons, h, Nat.add_comm]

theorem activeCount_deactivate_self (rows : List Prompt) (c : String) :
    activeCount (rows.map (deactivateCat c)) c = 0 := by
  induction rows with
  | nil => rfl
  | cons p rows ih =>
    rw [List.map_cons, activeCount_cons, ih]
    by_cases h : p.action_type = c
    · simp [deactivateCat_of_eq h, activeFilter]
    · simp [deactivateCat_of_ne h, activeFilter, h]

theorem activeCount_deactivate_other (rows : List Prompt) (c c2 : String) (hne : ¬ c2 = c) :
    activeCount (rows.map (deactivateCat c)) c2 = activeCount rows c2 := by
  induction rows with
  | nil => rfl
  | cons p rows ih =>
    rw [List.map_cons, activeCount_cons, activeCount_cons, ih]
    by_cases h : p.action_type = c
    · have hne2 : ¬ p.action_type = c2 := by rw [h]; exact fun hx => hne hx.symm
      simp [deactivateCat_of_eq h, activeFilter, hne2]
    · simp [deactivateCat_of_ne h]

theorem map_activateId_of_absent (rows : List Prompt) (pid : Nat)
    (h : ∀ p ∈ rows, p.id ≠ pid) : rows.map (activateId pid) = rows := by
  induction rows with
  | nil => rfl
  | cons p rows ih =>
    rw [List.map_cons,
      show activateId pid p = p by simp [activateId, h p (List.mem_cons_self p rows)],
      ih (fun q hq => h q (List.mem_cons_of_mem p hq))]

theorem find?_split {α : Type} (f : α → Bool) :
    ∀ (l : List α) (r : α), l.find? f = some r →
      ∃ l1 l2, l = l1 ++ r :: l2 ∧ (∀ a ∈ l1, f a = false) ∧ f r = true := by
  intro l
  induction l with
  | nil => intro r h; simp [List.find?] at h
  | cons a l ih =>
    intro r h
    cases hf : f a with
    | true =>
      rw [List.find?_cons_of_pos _ hf] at h
      injection h with h2
      subst h2
      exact ⟨[], l, rfl, by simp, hf⟩
    | false =>
      rw [List.find?_cons_of_neg _ (by simp [hf])] at h
      obtain ⟨l1, l2, hl, h1, hr⟩ := ih r h
      refine ⟨a :: l1, l2, by rw [hl]; rfl, ?_, hr⟩
      intro x hx
      rcases List.mem_cons.mp hx with hx | hx
      · rw [hx]; exact hf
      · exact h1 x hx

theorem activeCount_singleton (p : Prompt) (c : String) :
    activeCount [p] c = if activeFilter c p then 1 else 0 := by
  rw [activeCount_cons]; rfl

/-- C1: for every category, a table in which at most one row per category is
active (with distinct primary keys) still has at most one active row per
category after any completed `create_prompt_version` or
`activate_prompt_version` call. -/
theorem C1_single_active (s : PromptStore) (cat txt : String) (mdl : Option String) (pid : Nat)
    (hinv : ∀ c, activeCount s.rows c ≤ 1)
    (hnodup : (s.rows.map (fun p => p.id)).Nodup) :
    (∀ c, activeCount (create_prompt_version s cat txt mdl).2.rows c ≤ 1) ∧
    (∀ c, activeCount (activate_prompt_version s pid).1.rows c ≤ 1) := by
  constructor
  · intro c
    have hrows : (create_prompt_version s cat txt mdl).2.rows
        = s.rows.map (deactivateCat cat) ++ [(create_prompt_version s cat txt mdl).1] := rfl
    have hact : (create_prompt_version s cat txt mdl).1.action_type = cat := rfl
    have hactv : (create_prompt_version s cat txt mdl).1.active = true := rfl
    rw [hrows, activeCount_append, activeCount_singleton]
    by_cases hc : c = cat
    · subst hc
      rw [activeCount_deactivate_self]
      simp [activeFilter, hact, hactv]
    · rw [activeCount_deactivate_other _ _ _ hc]
      have hmid : activeFilter c (create_prompt_version s cat txt mdl).1 = false := by
        simp [activeFilter, hact, Ne.symm hc]
      rw [hmid]
      simpa using hinv c
  · intro c
    cases hf : s.rows.find? (fun p => p.id == pid) with
    | none =>
      have : (activate_prompt_version s pid).1 = s := by
        unfold activate_prompt_version; rw [hf]
      rw [this]; exact hinv c
    | some r =>
      have hrows : (activate_prompt_version s pid).1.rows
          = (s.rows.map (deactivateCat r.action_type)).map (activateId pid) := by
        unfold activate_prompt_version; rw [hf]
      obtain ⟨l1, l2, hsplit, hl1, hr⟩ := find?_split _ s.rows r hf
      have hrid : r.id = pid := by simpa using hr
      have hl1id : ∀ p ∈ l1, p.id ≠ pid := by
        intro p hp
        have := hl1 p hp
        simpa using this
      have hl2id : ∀ p ∈ l2, p.id ≠ pid := by
        rw [hsplit] at hnodup
        rw [List.map_append, List.map_cons] at hnodup
        have hnd := (List.nodup_append.mp hnodup).2.1
        have hnotmem : r.id ∉ l2.map (fun p => p.id) := (List.nodup_cons.mp hnd).1
        intro p hp hpe
        exact hnotmem (by
          rw [← hrid] at hpe
          exact hpe ▸ List.mem_map_of_mem (fun p => p.id) hp)
      have habsent1 : ∀ q ∈ l1.map (deactivateCat r.action_type), q.id ≠ pid := by
        intro q hq
        rcases List.mem_map.mp hq with ⟨p, hp, rfl⟩
        rw [deactivateCat_id]
        exact hl1id p hp
      have habsent2 : ∀ q ∈ l2.map (deactivateCat r.action_type), q.id ≠ pid := by
        intro q hq
        rcases List.mem_map.mp hq with ⟨p, hp, rfl⟩
        rw [deactivateCat_id]
        exact hl2id p hp
      have hmid : activateId pid (deactivateCat r.action_type r) = { r with active := true } := by
        simp [deactivateCat, activateId, hrid]
      rw [hrows, hsplit, List.map_append, List.map_cons, List.map_append, List.map_cons,
        map_activateId_of_absent _ _ habsent1, map_activateId_of_absent _ _ habsent2, hmid,
        activeCount_append, activeCount_cons]
      by_cases hc : c = r.action_type
      · subst hc
        rw [activeCount_deactivate_self, activeCount_deactivate_self]
        simp [activeFilter]
      · rw [activeCount_deactivate_other _ _ _ hc, activeCount_deactivate_other _ _ _ hc]
        have hmidf : activeFilter c { r with active := true } = false := by
          simp [activeFilter, Ne.symm hc]
        rw [hmidf]
        have := hinv c
        rw [hsplit, activeCount_append, activeCount_cons] at this
        simp only [if_false, Bool.false_eq_true]
        omega

/-- Witness for C1: on a concrete one-row store both operations keep at most
one active row in the touched category. -/
theorem C1_single_active_witness :
    activeCount (create_prompt_version ⟨[Prompt.mk 0 "plan_evolution" none "t0" 1 true], 1⟩
      "plan_evolution" "t1" none).2.rows "plan_evolution" ≤ 1 ∧
    activeCount (activate_prompt_version ⟨[Prompt.mk 0 "plan_evolution" none "t0" 1 true], 1⟩
      0).1.rows "plan_evolution" ≤ 1 := by
  have h := C1_single_active ⟨[Prompt.mk 0 "plan_evolution" none "t0" 1 true], 1⟩
    "plan_evolution" "t1" none 0
    (by
      intro c
      rw [activeCount_cons]
      split <;> simp [activeCount])
    (by simp)
  exact ⟨h.1 "plan_evolution", h.2 "plan_evolution"⟩

theorem get_active_none_eq (s : PromptStore) (cat : String) :
    get_active_prompt s cat none =
      match sortDescBy (fun p => p.version) (s.rows.filter (activeFilter cat)) with
      | [] => Except.ok none
      | [p] => Except.ok (some p.prompt_text)
      | _ => Except.error "MultipleResultsFound" := by
  rw [get_active_prompt]
  have hfun : (fun p : Prompt => p.action_type == cat && p.active &&
      (match (none : Option String) with
       | none => true
       | some m => if m == "" then true else p.model == some m)) = activeFilter cat := by
    funext p
    simp [activeFilter]
  rw [hfun]

theorem mem_insertDescBy {α : Type} (key : α → Nat) (a x : α) :
    ∀ l : List α, x ∈ insertDescBy key a l ↔ x = a ∨ x ∈ l
  | [] => by simp [insertDescBy]
  | b :: l => by
    simp only [insertDescBy]
    split
    · simp [List.mem_cons]
    · rw [List.mem_cons, mem_insertDescBy key a x l, List.mem_cons]
      tauto

theorem mem_sortDescBy {α : Type} (key : α → Nat) (x : α) :
    ∀ l : List α, x ∈ sortDescBy key l ↔ x ∈ l
  | [] => Iff.rfl
  | a :: l => by
    simp only [sortDescBy]
    rw [mem_insertDescBy, mem_sortDescBy key x l, List.mem_cons]

theorem pairwise_insertDescBy {α : Type} (key : α → Nat) (a : α) :
    ∀ l : List α, List.Pairwise (fun x y => key y ≤ key x) l →
      List.Pairwise (fun x y => key y ≤ key x) (insertDescBy key a l)
  | [], _ => by simp [insertDescBy]
  | b :: l, hp => by
    simp only [insertDescBy]
    split
    · refine List.Pairwise.cons ?_ hp
      intro y hy
      rcases List.mem_cons.mp hy with rfl | hy
      · assumption
      · exact le_trans ((List.pairwise_cons.mp hp).1 y hy) (by assumption)
    · have hpl := List.pairwise_cons.mp hp
      refine List.Pairwise.cons ?_ (pairwise_insertDescBy key a l hpl.2)
      intro y hy
      rcases (mem_insertDescBy key a y l).mp hy with rfl | hy
      · exact le_of_not_le (by assumption)
      · exact hpl.1 y hy

theorem sortDescBy_pairwise {α : Type} (key : α → Nat) :
    ∀ l : List α, List.Pairwise (fun x y => key y ≤ key x) (sortDescBy key l)
  | [] => List.Pairwise.nil
  | a :: l => pairwise_insertDescBy key a _ (sortDescBy_pairwise key l)

/-- C10: `get_current_active_plan` returns a plan whose version is the global
maximum over all stored plans, regardless of lineage (ties resolved by the
sort order), and returns `None` when no plans exist. -/
theorem C10_current_plan (s : PlanStore) :
    (s.plans = [] → get_current_active_plan s = none) ∧
    (∀ p, get_current_active_plan s = some p →
      p ∈ s.plans ∧ ∀ q ∈ s.plans, q.version ≤ p.version) := by
  constructor
  · intro h; rw [get_current_active_plan, h]; rfl
  · intro p hp
    unfold get_current_active_plan at hp
    cases hs : sortDescBy (fun p => p.version) s.plans with
    | nil => rw [hs] at hp; simp at hp
    | cons a t =>
      rw [hs] at hp
      simp only [List.head?_cons, Option.some.injEq] at hp
      subst hp
      have hsort := sortDescBy_pairwise (fun p => p.version) s.plans
      rw [hs] at hsort
      have hpair := List.pairwise_cons.mp hsort
      constructor
      · exact (mem_sortDescBy _ _ _).mp (by rw [hs]; exact List.mem_cons_self a t)
      · intro q hq
        have hq2 : q ∈ a :: t := by rw [← hs]; exact (mem_sortDescBy _ _ _).mpr hq
        rcases List.mem_cons.mp hq2 with rfl | hq2
        · exact le_refl _
        · exact hpair.1 q hq2

/-- Witness for C10: in a concrete two-plan store the returned plan is a
stored row (the one with the maximal version). -/
theorem C10_current_plan_witness :
    Plan.mk 2 Json.null 5 none ∈ [Plan.mk 1 Json.null 1 none, Plan.mk 2 Json.null 5 none] :=
  ((C10_current_plan ⟨[Plan.mk 1 Json.null 1 none, Plan.mk 2 Json.null 5 none], 3⟩).2
    (Plan.mk 2 Json.null 5 none) rfl).1

/-- C8: starting from a store with no rows for category `workout_analysis`,
creating two versions assigns versions 1 and 2, after which the active prompt
is the second text and the history lists the two rows in descending-version
order. -/
theorem C8_create_twice (s : PromptStore)
    (h : ∀ p ∈ s.rows, p.action_type ≠ "workout_analysis") :
    (create_prompt_version s "workout_analysis" "t1" none).1.version = 1 ∧
    (create_prompt_version (create_prompt_version s "workout_analysis" "t1" none).2
      "workout_analysis" "t2" none).1.version = 2 ∧
    get_active_prompt (create_prompt_version
      (create_prompt_version s "workout_analysis" "t1" none).2
      "workout_analysis" "t2" none).2 "workout_analysis" none = Except.ok (some "t2") ∧
    get_prompt_history (create_prompt_version
      (create_prompt_version s "workout_analysis" "t1" none).2
      "workout_analysis" "t2" none).2 "workout_analysis" =
      [(create_prompt_version (create_prompt_version s "workout_analysis" "t1" none).2
        "workout_analysis" "t2" none).1,
       { (create_prompt_version s "workout_analysis" "t1" none).1 with active := false }] := by
  set W := "workout_analysis" with hWdef
  set r1 := create_prompt_version s W "t1" none with hr1
  set r2 := create_prompt_version r1.2 W "t2" none with hr2
  have hm1 : ∀ q ∈ s.rows.map (deactivateCat W), q.action_type ≠ W := by
    intro q hq
    rcases List.mem_map.mp hq with ⟨p, hp, rfl⟩
    rw [deactivateCat_action]
    exact h p hp
  have hm2 : ∀ q ∈ (s.rows.map (deactivateCat W)).map (deactivateCat W),
      q.action_type ≠ W := by
    intro q hq
    rcases List.mem_map.mp hq with ⟨p, hp, rfl⟩
    rw [deactivateCat_action]
    exact hm1 p hp
  have hs1rows : r1.2.rows = s.rows.map (deactivateCat W) ++ [r1.1] := by rw [hr1]; rfl
  have hp1act : r1.1.action_type = W := by rw [hr1]; rfl
  have hs2rows : r2.2.rows = r1.2.rows.map (deactivateCat W) ++ [r2.1] := by rw [hr2]; rfl
  have hp2act : r2.1.action_type = W := by rw [hr2]; rfl
  have hp2active : r2.1.active = true := by rw [hr2]; rfl
  have hp2text : r2.1.prompt_text = "t2" := by rw [hr2]; rfl
  have hmax1 : max_version (s.rows.map (deactivateCat W)) W = 0 := by
    rw [max_version, filter_eq_nil_of_false _ _
      (fun p hp => beq_eq_false_iff_ne.mpr (hm1 p hp))]
    rfl
  have part1 : r1.1.version = 1 := by
    rw [hr1]
    show max_version (s.rows.map (deactivateCat W)) W + 1 = 1
    rw [hmax1]
  have hmax2 : max_version (r1.2.rows.map (deactivateCat W)) W = 1 := by
    rw [hs1rows, List.map_append, List.map_cons, List.map_nil, deactivateCat_of_eq hp1act]
    rw [max_version, List.filter_append,
      filter_eq_nil_of_false _ _ (fun p hp => beq_eq_false_iff_ne.mpr (hm2 p hp)),
      List.nil_append]
    simp only [List.filter_cons, List.filter_nil, hp1act, beq_self_eq_true, if_true]
    simp only [List.map_cons, List.map_nil, List.foldr_cons, List.foldr_nil]
    show Nat.max r1.1.version 0 = 1
    rw [part1]
    rfl
  have part2 : r2.1.version = 2 := by
    rw [hr2]
    show max_version (r1.2.rows.map (deactivateCat W)) W + 1 = 2
    rw [hmax2]
  have hfA2 : (((s.rows.map (deactivateCat W)).map (deactivateCat W)).filter
      (activeFilter W)) = [] := by
    apply filter_eq_nil_of_false
    intro p hp
    simp [activeFilter, beq_eq_false_iff_ne.mpr (hm2 p hp)]
  have hfd1 : ([{ r1.1 with active := false }] : List Prompt).filter (activeFilter W) = [] := by
    simp [List.filter_cons, activeFilter]
  have hfp2 : ([r2.1] : List Prompt).filter (activeFilter W) = [r2.1] := by
    simp [List.filter_cons, activeFilter, hp2act, hp2active]
  have part3 : get_active_prompt r2.2 W none = Except.ok (some "t2") := by
    rw [get_active_none_eq, hs2rows, hs1rows, List.map_append, List.map_cons, List.map_nil,
      deactivateCat_of_eq hp1act, List.filter_append, List.filter_append, hfA2, hfd1, hfp2]
    show Except.ok (some r2.1.prompt_text) = Except.ok (some "t2")
    rw [hp2text]
  have hh1 : (((s.rows.map (deactivateCat W)).map (deactivateCat W)).filter
      (fun p => p.action_type == W)) = [] :=
    filter_eq_nil_of_false _ _ (fun p hp => beq_eq_false_iff_ne.mpr (hm2 p hp))
  have hh2 : ([{ r1.1 with active := false }] : List Prompt).filter
      (fun p => p.action_type == W) = [{ r1.1 with active := false }] := by
    simp only [List.filter_cons, List.filter_nil]
    show (if r1.1.action_type == W then _ else _) = _
    rw [hp1act]
    simp
  have hh3 : ([r2.1] : List Prompt).filter (fun p => p.action_type == W) = [r2.1] := by
    simp [List.filter_cons, hp2act]
  have part4 : get_prompt_history r2.2 W =
      [r2.1, { r1.1 with active := false }] := by
    rw [get_prompt_history, hs2rows, hs1rows, List.map_append, List.map_cons, List.map_nil,
      deactivateCat_of_eq hp1act, List.filter_append, List.filter_append, hh1, hh2, hh3]
    have hcond : ¬ (r2.1.version ≤ ({ r1.1 with active := false } : Prompt).version) := by
      show ¬ (r2.1.version ≤ r1.1.version)
      rw [part1, part2]
      omega
    simp only [List.nil_append, List.cons_append]
    simp only [sortDescBy, insertDescBy]
    rw [if_neg hcond]
  exact ⟨part1, part2, part3, part4⟩

/-- Witness for C8: from the empty store, after the two creations the active
`workout_analysis` prompt is the second text. -/
theorem C8_create_twice_witness :
    get_active_prompt (create_prompt_version
      (create_prompt_version ⟨[], 0⟩ "workout_analysis" "t1" none).2
      "workout_analysis" "t2" none).2 "workout_analysis" none = Except.ok (some "t2") :=
  (C8_create_twice ⟨[], 0⟩ (by intro p hp; cases hp)).2.2.1

/-- C9: `activate_prompt_version` reports failure (the `NotFound` outcome,
returned as `False`) and leaves the store untouched when no row has the given
primary key; when the row exists it deactivates every row sharing that row's
category, then activates the given row, and reports success (`True`). -/
theorem C9_activate_semantics (s : PromptStore) (pid : Nat) :
    (s.rows.find? (fun p => p.id == pid) = none →
      activate_prompt_version s pid = (s, false)) ∧
    (∀ r, s.rows.find? (fun p => p.id == pid) = some r →
      (activate_prompt_version s pid).2 = true ∧
      (activate_prompt_version s pid).1.rows =
        s.rows.map (fun p =>
          if p.id == pid then { p with active := true }
          else if p.action_type == r.action_type then { p with active := false } else p)) := by
  constructor
  · intro h
    unfold activate_prompt_version
    rw [h]
  · intro r h
    refine ⟨by unfold activate_prompt_version; rw [h], ?_⟩
    have hrows : (activate_prompt_version s pid).1.rows
        = (s.rows.map (deactivateCat r.action_type)).map (activateId pid) := by
      unfold activate_prompt_version; rw [h]
    rw [hrows, List.map_map]
    have hfun : (activateId pid ∘ deactivateCat r.action_type) = (fun p =>
        if p.id == pid then { p with active := true }
        else if p.action_type == r.action_type then { p with active := false } else p) := by
      funext p
      obtain ⟨i, aty, mdl, txt, ver, act⟩ := p
      by_cases hid : i = pid
      · by_cases hty : aty = r.action_type
        · simp [Function.comp, deactivateCat, activateId, hid, hty]
        · simp [Function.comp, deactivateCat, activateId, hid, hty]
      · by_cases hty : aty = r.action_type
        · simp [Function.comp, deactivateCat, activateId, hid, hty]
        · simp [Function.comp, deactivateCat, activateId, hid, hty]
    rw [hfun]

/-- Witness for C9: activating an existing row reports success. -/
theorem C9_activate_semantics_witness :
    (activate_prompt_version ⟨[Prompt.mk 0 "plan_evolution" none "t0" 1 false], 1⟩ 0).2 = true :=
  ((C9_activate_semantics ⟨[Prompt.mk 0 "plan_evolution" none "t0" 1 false], 1⟩ 0).2
    (Prompt.mk 0 "plan_evolution" none "t0" 1 false) rfl).1

/-- C2: the generation request loop makes up to 3 total attempts with a
30-second per-attempt timeout, waiting `2 ^ attempt` seconds between failed
attempts (1s after the first failure, 2s after the second, no delay before
the first attempt); if all 3 attempts fail it raises `AIServiceError`
wrapping the last failure after exactly 3 attempts, and if the first two
attempts fail and the third succeeds it returns that attempt's payload
after exactly 3 attempts. -/
theorem C2_retry_behavior (oracle : Nat → AttemptResult) :
    (make_ai_request oracle).attempts ≤ 3 ∧
    (make_ai_request oracle).timeouts =
      List.replicate (make_ai_request oracle).attempts request_timeout ∧
    (∀ e0 e1 e2, oracle 0 = AttemptResult.failure e0 → oracle 1 = AttemptResult.failure e1 →
      oracle 2 = AttemptResult.failure e2 →
      make_ai_request oracle =
        { outcome := Except.error ("AI request failed after 3 attempts: " ++ e2),
          attempts := 3, sleeps := [1, 2], timeouts := [30, 30, 30] }) ∧
    (∀ e0 e1 c, oracle 0 = AttemptResult.failure e0 → oracle 1 = AttemptResult.failure e1 →
      oracle 2 = AttemptResult.success c →
      make_ai_request oracle =
        { outcome := Except.ok c, attempts := 3, sleeps := [1, 2], timeouts := [30, 30, 30] }) := by
  refine ⟨?_, ?_, ?_, ?_⟩
  · cases h0 : oracle 0 <;> cases h1 : oracle 1 <;> cases h2 : oracle 2 <;>
      simp [make_ai_request, retry_go, h0, h1, h2]
  · cases h0 : oracle 0 <;> cases h1 : oracle 1 <;> cases h2 : oracle 2 <;>
      simp [make_ai_request, retry_go, h0, h1, h2, request_timeout, List.replicate]
  · intro e0 e1 e2 h0 h1 h2
    simp [make_ai_request, retry_go, h0, h1, h2, request_timeout]
  · intro e0 e1 c h0 h1 h2
    simp [make_ai_request, retry_go, h0, h1, h2, request_timeout]

/-- Witness for C2 at a concrete oracle: two failures then a success give the
successful payload after exactly 3 attempts with backoff sleeps 1s and 2s. -/
theorem C2_retry_behavior_witness :
    make_ai_request (fun i => if i == 2 then AttemptResult.success "ok" else AttemptResult.failure "boom") =
      { outcome := Except.ok "ok", attempts := 3, sleeps := [1, 2], timeouts := [30, 30, 30] } :=
  (C2_retry_behavior
    (fun i => if i == 2 then AttemptResult.success "ok" else AttemptResult.failure "boom")).2.2.2
    "boom" "boom" "ok" rfl rfl rfl

/-- C3: for every response string, the tolerant parsers either return the
strict JSON parse of the cleaned payload (whitespace-trimmed, ```json fence
stripped), or, when the strict parse fails, the raw marker dictionary
carrying the original text with `structured = false` — they never raise; in
particular the fenced reply yields the parsed object and a non-JSON reply
yields the raw fallback. -/
theorem C3_tolerant_parse :
    (∀ response : String,
      (∃ v, json_loads (clean_response response) = some v ∧
        parse_plan_response response = v ∧ parse_workout_analysis response = v) ∨
      (json_loads (clean_response response) = none ∧
        parse_plan_response response = raw_plan_obj response ∧
        parse_workout_analysis response = raw_analysis_obj response)) ∧
    parse_plan_response "```json\n\x7b\"a\":1\x7d\n```" = Json.obj [("a", Json.number 1 0)] ∧
    parse_plan_response "not json" = raw_plan_obj "not json" := by
  refine ⟨?_, ?_, ?_⟩
  · intro response
    cases h : json_loads (clean_response response) with
    | none => exact Or.inr ⟨rfl, by simp [parse_plan_response, h], by simp [parse_workout_analysis, h]⟩
    | some v => exact Or.inl ⟨v, rfl, by simp [parse_plan_response, h], by simp [parse_workout_analysis, h]⟩
  · rfl
  · rfl

/-- C4: whenever `evolve_plan_from_analysis` creates a plan, the new plan's
version is the parent's version plus one, its parent pointer is the parent's
id, and it is exactly the one row appended to the store. -/
theorem C4_fork_version (gateway : EvolutionContext → Except AIErr Json)
    (analysis : Analysis) (plan : Plan) (s : PlanStore) (p : Plan) (s2 : PlanStore)
    (h : evolve_plan_from_analysis gateway analysis plan s = Except.ok (some p, s2)) :
    p.version = plan.version + 1 ∧ p.parent_plan_id = some plan.id ∧
    s2.plans = s.plans ++ [p] := by
  unfold evolve_plan_from_analysis at h
  split at h
  · simp at h
  · split at h
    · simp at h
    · cases hg : gateway (build_evolution_context analysis plan) with
      | error e => rw [hg] at h; simp at h
      | ok d =>
        rw [hg] at h
        simp only [Except.ok.injEq, Prod.mk.injEq] at h
        obtain ⟨hp, hs⟩ := h
        cases hp
        cases hs
        simp

/-- Witness for C4: forking a parent with version 3 yields version 4 and the
parent's id as parent pointer. -/
theorem C4_fork_version_witness :
    (Plan.mk 0 Json.null 4 (some 7)).version = (Plan.mk 7 Json.null 3 none).version + 1 ∧
    (Plan.mk 0 Json.null 4 (some 7)).parent_plan_id = some (Plan.mk 7 Json.null 3 none).id ∧
    (PlanStore.mk [Plan.mk 0 Json.null 4 (some 7)] 1).plans =
      (PlanStore.mk ([] : List Plan) 0).plans ++ [Plan.mk 0 Json.null 4 (some 7)] :=
  C4_fork_version (fun _ => Except.ok Json.null)
    ⟨1, 2, Json.null, some (Json.str "x"), true⟩ ⟨7, Json.null, 3, none⟩ ⟨[], 0⟩
    (Plan.mk 0 Json.null 4 (some 7)) (PlanStore.mk [Plan.mk 0 Json.null 4 (some 7)] 1) rfl

/-- C5: when the feedback is not approved, or its suggestions are empty or
absent, `evolve_plan_from_analysis` returns `None` and leaves the plan store
exactly unchanged (no writes, no error). -/
theorem C5_no_write (gateway : EvolutionContext → Except AIErr Json)
    (analysis : Analysis) (plan : Plan) (s : PlanStore)
    (h : analysis.approved = false ∨ jsonTruthy analysis.suggestions = false) :
    evolve_plan_from_analysis gateway analysis plan s = Except.ok (none, s) := by
  unfold evolve_plan_from_analysis
  rcases h with h | h
  · simp [h]
  · by_cases ha : analysis.approved = false
    · simp [ha]
    · simp [ha, h]

/-- Witness for C5: unapproved feedback yields `None` and the untouched store. -/
theorem C5_no_write_witness :
    evolve_plan_from_analysis (fun _ => Except.ok Json.null)
      ⟨1, 2, Json.null, some (Json.str "x"), false⟩ ⟨7, Json.null, 3, none⟩ ⟨[], 0⟩ =
      Except.ok (none, (⟨[], 0⟩ : PlanStore)) :=
  C5_no_write (fun _ => Except.ok Json.null)
    ⟨1, 2, Json.null, some (Json.str "x"), false⟩ ⟨7, Json.null, 3, none⟩ ⟨[], 0⟩ (Or.inl rfl)

/-- C6 (code evaluated at the failing input): with no active template,
`AIService.evolve_plan` raises the clean `ValueError` guard with zero HTTP
attempts, but `AIService.generate_plan`, which lacks the guard, instead
crashes with `AttributeError` from `None.format` — also before any network
call. -/
theorem C6_no_template_behavior :
    ai_evolve_plan ⟨[], 0⟩ [] (fun _ => AttemptResult.failure "net") =
      (Except.error (AIErr.valueError "No active plan evolution prompt found"), 0) ∧
    ai_generate_plan ⟨[], 0⟩ [] (fun _ => AttemptResult.failure "net") =
      (Except.error AIErr.attributeError, 0) :=
  ⟨rfl, rfl⟩

/-- C7: approved feedback with non-empty suggestions whose generation result
is the raw (unstructured) fallback still forks the plan, using the raw marker
dictionary as the new plan's content — the fork step does not branch on
whether the generation result is parsed or raw. -/
theorem C7_raw_forks (gateway : EvolutionContext → Except AIErr Json)
    (analysis : Analysis) (plan : Plan) (s : PlanStore) (t : String)
    (h1 : analysis.approved = true) (h2 : jsonTruthy analysis.suggestions = true)
    (h3 : gateway (build_evolution_context analysis plan) = Except.ok (raw_plan_obj t)) :
    evolve_plan_from_analysis gateway analysis plan s =
      Except.ok (some (Plan.mk s.next_id (raw_plan_obj t) (plan.version + 1) (some plan.id)),
        PlanStore.mk
          (s.plans ++ [Plan.mk s.next_id (raw_plan_obj t) (plan.version + 1) (some plan.id)])
          (s.next_id + 1)) := by
  unfold evolve_plan_from_analysis
  simp [h1, h2, h3]

/-- Witness for C7: a concrete approved analysis with a raw generation result
forks the plan with the raw dictionary as content. -/
theorem C7_raw_forks_witness :
    evolve_plan_from_analysis (fun _ => Except.ok (raw_plan_obj "oops"))
      ⟨1, 2, Json.null, some (Json.str "x"), true⟩ ⟨7, Json.null, 3, none⟩ ⟨[], 0⟩ =
      Except.ok (some ⟨0, raw_plan_obj "oops", 4, some 7⟩,
        (⟨[⟨0, raw_plan_obj "oops", 4, some 7⟩], 1⟩ : PlanStore)) :=
  C7_raw_forks (fun _ => Except.ok (raw_plan_obj "oops"))
    ⟨1, 2, Json.null, some (Json.str "x"), true⟩ ⟨7, Json.null, 3, none⟩ ⟨[], 0⟩ "oops"
    rfl rfl rfl

end Coach
